import Mathlib

/-
  Verification development for the Describble distributed document-sharing core.

  The development shallowly embeds the document model (Document.ts), the
  sharing-client request handler (DocumentSharingClient.ts) and the typed
  message exchanger (MessageExchanger.ts).  External collaborators that the
  source treats as opaque libraries — the Automerge CRDT, the Ed25519-style
  crypto primitives and the CBOR codec — are given symbolic executable
  models, as the spec directs (they are out of scope and used as named APIs).
  The DocumentHeader class is not part of the provided sources; its
  operations are modelled from the spec (sections 4.1 and 6).
-/

namespace Describble

/-! ### Symbolic cryptography

Modelled from the spec: the crypto primitives (pubkey derivation, signing,
verification) are external ("treated as a named API").  Keys are numbers,
public-key derivation is an injective function, and a signature is a
symbolic pair of the signer's public key and the signed payload. -/

abbrev PrivKey := Nat

abbrev PubKey := Nat

/-- Modelled from the spec: pubkey derivation for the external Ed25519-style
API.  Any injective function works for the symbolic model. -/
def getPublicKey (k : PrivKey) : PubKey := k + 1

/-! ### Automerge CRDT model

The spec treats the CRDT library as an opaque document type with `init`,
`load_incremental`, `change`, `save`, `merge`, `get_heads`, `clone`.
We model a doc as its materialised data together with its frontier heads
(opaque hashes, modelled as numbers).  `save` is the identity embedding
into the binary type, `load_incremental` merges the saved changes in, and
`merge` takes the newer doc when one history subsumes the other and
otherwise joins data and heads. -/

/-- How concurrent data values join under a CRDT merge; opaque to all claims. -/
class MergeSpec (α : Type) where
  mergeData : α → α → α

/-- Model of an Automerge document: materialised data plus frontier heads. -/
structure ADoc (α : Type) where
  data : α
  heads : List Nat
deriving DecidableEq, Repr

namespace Automerge

/-- Model of `A.init` (the patch callback registered at init is part of the
event layer and is not modelled). -/
def init (α : Type) [Inhabited α] : ADoc α := ⟨default, []⟩

/-- Model of `A.getHeads`. -/
def getHeads (d : ADoc α) : List Nat := d.heads

/-- Boolean test that every head of `a` appears in `b`. -/
def headsSubset (a b : List Nat) : Bool := a.all (fun h => b.contains h)

/-- Model of `A.merge`: when one doc's history subsumes the other, the
result is the larger doc; otherwise data values join and heads unite. -/
def merge [MergeSpec α] (d1 d2 : ADoc α) : ADoc α :=
  if headsSubset d1.heads d2.heads then d2
  else if headsSubset d2.heads d1.heads then d1
  else ⟨MergeSpec.mergeData d1.data d2.data, (d1.heads ++ d2.heads).dedup⟩

/-- Model of `A.save`: the binary is a faithful encoding of the doc, so the
model keeps the doc itself. -/
def save (d : ADoc α) : ADoc α := d

/-- Model of `A.loadIncremental`: applies the saved changes to the doc. -/
def loadIncremental [MergeSpec α] (d b : ADoc α) : ADoc α := merge d b

/-- Model of `A.clone`. -/
def clone (d : ADoc α) : ADoc α := d

/-- Model of `A.change`: applies the change function and moves the frontier
to a single fresh head (head-hash bookkeeping is abstracted to picking a
number not below any existing head). -/
def change (d : ADoc α) (f : α → α) : ADoc α :=
  ⟨f d.data, [d.heads.foldr max 0 + 1]⟩

/-- Model of `A.changeAt`: a change rooted at historical heads `hs` adds a
fresh head without superseding the current frontier. -/
def changeAt (d : ADoc α) (hs : List Nat) (f : α → α) : ADoc α :=
  ⟨f d.data, (d.heads ++ [hs.foldr max 0 + 1]).dedup⟩

end Automerge

/-! ### DocumentHeader

Modelled from the spec (section 4.1): the DocumentHeader class itself is
not among the provided sources; only its call sites are.  Fields and
operations follow the spec's words: address, owner, allowedUsers, version,
metadata, owner signature over the canonical body; `create` makes the owner
an allowed user at version 1; `upgrade` enforces address equality, strictly
greater version and signature validity under the old owner;
`hasAllowedUser` is ACL membership; header `export`/`import` is the
canonical encoding round-trip, with `import` verifying the signature. -/

/-- Document address: owner public key plus random nonce (the SHA-256 of
the pair is abstracted to the pair itself, which is just as injective). -/
structure Address where
  owner : PubKey
  nonce : Nat
deriving DecidableEq, Repr

/-- Opaque user-defined metadata mapping. -/
abbrev Metadata := List (String × String)

/-- Canonical signed body of a header: (address, version, allowedUsers,
metadata). -/
structure HeaderBody where
  address : Address
  version : Nat
  allowedUsers : List PubKey
  metadata : Metadata
deriving DecidableEq, Repr

/-- Symbolic signature over a header body. -/
structure HeaderSig where
  signer : PubKey
  body : HeaderBody
deriving DecidableEq, Repr

/-- Modelled from the spec: the signed authorization envelope of a
document. -/
structure DocumentHeader where
  address : Address
  owner : PubKey
  version : Nat
  allowedUsers : List PubKey
  metadata : Metadata
  signature : HeaderSig
deriving DecidableEq, Repr

/-- Error kinds of the document layer (spec section 7). -/
inductive DocError where
  | unauthorizedAccess
  | documentValidation
  | invalidHeader
  | headerUpgradeRejected
deriving DecidableEq, Repr

namespace DocumentHeader

/-- The canonical body a header's signature covers. -/
def body (h : DocumentHeader) : HeaderBody :=
  ⟨h.address, h.version, h.allowedUsers, h.metadata⟩

/-- Symbolic signing of a header body. -/
def signBody (priv : PrivKey) (b : HeaderBody) : HeaderSig :=
  ⟨getPublicKey priv, b⟩

/-- Symbolic verification of a header-body signature under a public key. -/
def verifyBodySig (pk : PubKey) (b : HeaderBody) (s : HeaderSig) : Bool :=
  s.signer == pk && s.body == b

/-- Modelled from the spec: `hasAllowedUser(pubkey)` is membership in the
header's ACL (the owner is always an allowed user by construction). -/
def hasAllowedUser (h : DocumentHeader) (pk : PubKey) : Bool :=
  h.allowedUsers.contains pk

/-- Modelled from the spec: `create` derives the owner from the private
key, makes the owner an allowed user, starts at version 1 and signs the
canonical body. -/
def create (priv : PrivKey) (allowedClients : List PubKey) (meta : Metadata)
    (nonce : Nat) : DocumentHeader :=
  let owner := getPublicKey priv
  let addr : Address := ⟨owner, nonce⟩
  let users := owner :: allowedClients
  let b : HeaderBody := ⟨addr, 1, users, meta⟩
  ⟨addr, owner, 1, users, meta, signBody priv b⟩

/-- Modelled from the spec: `upgrade(old, new)` enforces address equality,
strictly greater version, and signature validity under the old owner;
returns the new header or fails `HeaderUpgradeRejected`. -/
def upgrade (old new_ : DocumentHeader) : Except DocError DocumentHeader :=
  if new_.address = old.address ∧ old.version < new_.version
      ∧ verifyBodySig old.owner new_.body new_.signature = true then
    Except.ok new_
  else
    Except.error DocError.headerUpgradeRejected

/-- Modelled from the spec: the canonical header encoding; the model keeps
the header itself as its raw bytes. -/
def exportH (h : DocumentHeader) : DocumentHeader := h

/-- Modelled from the spec: decode raw header bytes and verify the owner
signature, failing `InvalidHeader` otherwise. -/
def importH (raw : DocumentHeader) : Except DocError DocumentHeader :=
  if verifyBodySig raw.owner raw.body raw.signature then Except.ok raw
  else Except.error DocError.invalidHeader

end DocumentHeader

/-! ### Symbolic content signatures and the export bundle -/

/-- Symbolic signature over exported CRDT content. -/
structure ContentSig (α : Type) where
  signer : PubKey
  content : ADoc α
deriving DecidableEq

/-- Model of `createSignature(content, privateKey)`. -/
def createSignature (content : ADoc α) (priv : PrivKey) : ContentSig α :=
  ⟨getPublicKey priv, content⟩

/-- Model of `DocumentHeader.verifySignature(content, signature)`: verifies
a content signature under the header's owner. -/
def DocumentHeader.verifyContentSig [DecidableEq α] (h : DocumentHeader)
    (content : ADoc α) (s : ContentSig α) : Bool :=
  s.signer == h.owner && s.content == content

/-- The CBOR map `{header, content, signature}` produced by
`Document.export`; the CBOR round-trip is modelled as the identity, so the
encoded bytes are the bundle itself. -/
structure ExportBundle (α : Type) where
  header : DocumentHeader
  content : ADoc α
  signature : ContentSig α
deriving DecidableEq

/-! ### Document (embedded from src/unnamed/part_008, class Document)

The mutable fields of a `Document` instance (`#document`, `#header`,
`#lastAccessed`, `#destroyed`) become an explicit state record; each method
becomes a state-passing function that additionally returns the list of
events it emits, in emission order.  Methods that can throw return the
failure alongside the (possibly updated) state.  The `patch` event is fired
by the CRDT library inside `A.change` and is outside this embedding. -/

/-- Events a Document emits (the `patch` event lives inside the CRDT
library call and is not modelled). -/
inductive DocEvent (α : Type) where
  | change (data : ADoc α)
  | headerUpdated (header : DocumentHeader)
  | destroyed
deriving DecidableEq

/-- The state of a `Document` instance: its private fields. -/
structure DocState (α : Type) where
  document : ADoc α
  header : DocumentHeader
  lastAccessed : Nat
  destroyed : Bool
deriving DecidableEq

namespace Document

/-- `Document.create`: fresh header via `DocumentHeader.create`, fresh CRDT
doc via `A.init`; `now` stands for `Date.now()` at construction. -/
def create (α : Type) [Inhabited α] (priv : PrivKey) (allowedClients : List PubKey)
    (meta : Metadata) (nonce : Nat) (now : Nat) : DocState α :=
  { document := Automerge.init α
    header := DocumentHeader.create priv allowedClients meta nonce
    lastAccessed := now
    destroyed := false }

/-- `Document.load`: `updateLastAccessed` then `A.loadIncremental` on the
current doc (the try/catch re-wraps load failures, which the CRDT model
does not produce). -/
def load [MergeSpec α] (st : DocState α) (now : Nat) (binary : ADoc α) :
    DocState α × List (DocEvent α) :=
  ({ st with lastAccessed := now
             document := Automerge.loadIncremental st.document binary }, [])

/-- `Document.hasChanged`: compares the heads of the current and the new
doc; changed unless the head lists have equal length and every current
head appears among the new heads. -/
def hasChanged [DecidableEq α] (st : DocState α) (doc : ADoc α) : Bool :=
  let aHeads := Automerge.getHeads st.document
  let bHeads := Automerge.getHeads doc
  !(aHeads.length == bHeads.length && aHeads.all (fun h => bHeads.contains h))

/-- `Document.update`: runs the callback on the current doc, emits `change`
when `hasChanged`, then replaces the state. -/
def update [DecidableEq α] (st : DocState α) (now : Nat) (f : ADoc α → ADoc α) :
    DocState α × List (DocEvent α) :=
  let st0 := { st with lastAccessed := now }
  let newDocument := f st0.document
  let evs := if hasChanged st0 newDocument then [DocEvent.change newDocument] else []
  ({ st0 with document := newDocument }, evs)

/-- The primitive steps `Document.update` performs after computing the
callback's result, in program order. -/
inductive UpdateStep (α : Type) where
  | emitChange (data : ADoc α)
  | setDocument (data : ADoc α)
deriving DecidableEq

/-- The trace of primitive steps of `Document.update`: the conditional
`change` emission, then the assignment to `#document`. -/
def updateTrace [DecidableEq α] (st : DocState α) (f : ADoc α → ADoc α) :
    List (UpdateStep α) :=
  let newDocument := f st.document
  (if hasChanged st newDocument then [UpdateStep.emitChange newDocument] else [])
    ++ [UpdateStep.setDocument newDocument]

/-- `Document.change`: `update` through `A.change`. -/
def change [DecidableEq α] (st : DocState α) (now : Nat) (f : α → α) :
    DocState α × List (DocEvent α) :=
  update st now (fun d => Automerge.change d f)

/-- `Document.changeAt`: `update` through `A.changeAt`. -/
def changeAt [DecidableEq α] (st : DocState α) (now : Nat) (hs : List Nat)
    (f : α → α) : DocState α × List (DocEvent α) :=
  update st now (fun d => Automerge.changeAt d hs f)

/-- `Document.export`: exports the header, requires the caller's public key
to be an allowed user (else `UnauthorizedAccessError` and no mutation),
then saves the data (the `data` getter refreshes `lastAccessed`) and signs
the content with the caller's private key. -/
def exportDoc [DecidableEq α] (st : DocState α) (now : Nat) (priv : PrivKey) :
    Except DocError (ExportBundle α) × DocState α :=
  let hdr := st.header.exportH
  if st.header.hasAllowedUser (getPublicKey priv) then
    let st1 := { st with lastAccessed := now }
    let content := Automerge.save st1.document
    (Except.ok ⟨hdr, content, createSignature content priv⟩, st1)
  else
    (Except.error DocError.unauthorizedAccess, st)

/-- `Document.updateHeader`: refreshes `lastAccessed`, attempts
`DocumentHeader.upgrade`; on success stores the result, emits
`header-updated` and returns true; the catch branch returns false. -/
def updateHeader [DecidableEq α] (st : DocState α) (now : Nat)
    (header : DocumentHeader) : DocState α × List (DocEvent α) × Bool :=
  let st1 := { st with lastAccessed := now }
  match DocumentHeader.upgrade st1.header header with
  | Except.ok h => ({ st1 with header := h }, [DocEvent.headerUpdated h], true)
  | Except.error _ => (st1, [], false)

/-- `Document.mergeDocument`: merges the other doc's CRDT state via
`update` exactly when `updateHeader` with the other doc's header returns
true. -/
def mergeDocument [DecidableEq α] [MergeSpec α] (st : DocState α) (now : Nat)
    (other : DocState α) : DocState α × List (DocEvent α) :=
  match updateHeader st now other.header with
  | (st1, evs, true) =>
      let (st2, evs2) :=
        update st1 now (fun doc => Automerge.merge doc (Automerge.clone other.document))
      (st2, evs ++ evs2)
  | (st1, evs, false) => (st1, evs)

/-- `Document.destroy`: sets the destroyed flag, emits `destroyed`, clears
listeners (listener bookkeeping lives in the emitter and is not part of the
state). -/
def destroy (st : DocState α) : DocState α × List (DocEvent α) :=
  ({ st with destroyed := true }, [DocEvent.destroyed])

/-- `Document.fromRawHeader`: decode the raw header and load the content
into a fresh document (the raw header was already decoded once by the
caller; `importH` is re-run as in the source). -/
def fromRawHeader [DecidableEq α] [MergeSpec α] [Inhabited α]
    (rawHeader : DocumentHeader) (content : ADoc α) (now : Nat) :
    Except DocError (DocState α) :=
  match DocumentHeader.importH rawHeader with
  | Except.ok h =>
      let st : DocState α :=
        { document := Automerge.init α, header := h
          lastAccessed := now, destroyed := false }
      Except.ok (load st now content).1
  | Except.error e => Except.error e

/-- `Document.import`: decode `{header, content, signature}` (the CBOR
round-trip is the identity in the model), import the header, verify the
content signature under the owner (else `DocumentValidationError`), then
build the document from the raw header and content. -/
def importDoc [DecidableEq α] [MergeSpec α] [Inhabited α]
    (rawDocument : ExportBundle α) (now : Nat) : Except DocError (DocState α) :=
  match DocumentHeader.importH rawDocument.header with
  | Except.ok header =>
      if header.verifyContentSig rawDocument.content rawDocument.signature then
        fromRawHeader rawDocument.header rawDocument.content now
      else
        Except.error DocError.documentValidation
  | Except.error e => Except.error e

end Document

/-! ### MessageExchanger (embedded from src/packages/ddnet/src/exchanger/MessageExchanger.ts)

Payloads are JSON-like values; a schema is the zod object schema of one
tagged-union option: a `type` literal plus a parse of the remaining fields
(zod strips unknown keys, so the parse output is rebuilt from the `type`
literal and the parsed rest).  `z.discriminatedUnion` reads the `type`
discriminant of an object input, selects the option with that literal and
delegates to it. -/

/-- JSON-like runtime values carried in message payloads. -/
inductive Val where
  | vstr (s : String)
  | vint (n : Int)
  | vbool (b : Bool)
  | vbytes (b : List Nat)
  | vobj (fields : List (String × Val))

/-- Field access on an object value (first binding wins, as in a JS
object built left to right). -/
def getField (v : Val) (k : String) : Option Val :=
  match v with
  | Val.vobj fields => fields.lookup k
  | _ => none

/-- One option of the tagged union: its `type` literal and the parse of
its remaining fields, returning the parsed (stripped) fields on success. -/
structure MsgSchema where
  tag : String
  parseRest : Val → Option (List (String × Val))

/-- Parse of a single zod object option: the input must carry the `type`
literal of this option; the output object is rebuilt from the literal and
the parsed rest (zod strips unrecognised keys). -/
def optionParse (s : MsgSchema) (v : Val) : Option Val :=
  match getField v "type" with
  | some (Val.vstr t) =>
      if t == s.tag then
        (s.parseRest v).map (fun fields => Val.vobj (("type", Val.vstr s.tag) :: fields))
      else none
  | _ => none

/-- `z.discriminatedUnion` parse: the input must be an object whose `type`
field is a string naming one of the options; that option then parses the
whole value. -/
def discriminatedParse (schemas : List MsgSchema) (v : Val) : Option Val :=
  match v with
  | Val.vobj _ =>
      match getField v "type" with
      | some (Val.vstr t) =>
          match schemas.find? (fun s => s.tag == t) with
          | some s => optionParse s v
          | none => none
      | _ => none
  | _ => none

/-- The string the JS expression `data.type` evaluates to on a parsed
payload. -/
def typeFieldStr (v : Val) : String :=
  match getField v "type" with
  | some (Val.vstr t) => t
  | _ => ""

/-- A message as received from the signaling client: sender plus payload. -/
structure InboundMessage where
  fromPublicKey : PubKey
  data : Val

/-- What `MessageExchanger.handle` did with one inbound message: the
`type`-keyed events it emitted (event name and payload data) and whether
it logged a parse error instead. -/
structure HandleResult where
  events : List (String × Val)
  loggedError : Bool

/-- `MessageExchanger.handle`: safe-parse the payload against the union;
on success emit one event keyed by `data.type` carrying the parsed data;
on failure log the error and emit nothing.  The function is total: the
safe parse never throws into the connection layer. -/
def MessageExchanger.handle (schemas : List MsgSchema) (message : InboundMessage) :
    HandleResult :=
  match discriminatedParse schemas message.data with
  | some data => { events := [(typeFieldStr data, data)], loggedError := false }
  | none => { events := [], loggedError := true }

/-- `MessageExchanger.sendMessage`: without a signaling client it throws;
with one, the payload is parsed against the union (`parseAsync` throws on
failure) and the parsed payload is delegated to the client.  The `ok`
value is the payload handed to `client.sendMessage`. -/
def MessageExchanger.sendMessage (schemas : List MsgSchema) (clientSet : Bool)
    (data : Val) : Except String Val :=
  if clientSet then
    match discriminatedParse schemas data with
    | some parsed => Except.ok parsed
    | none => Except.error "SchemaRejected"
  else
    Except.error "Cannot send message without a signaling client"

/-! ### DocumentSharingClient request-document handler
(embedded from src/unnamed/part_009 and part_010, `setupEvents`)

Both variants run the same logic: look the document up, and when it is
found and the sender is an allowed user, send a `document-response`
carrying `document.export(<local private key>)`, emit `share-document` and
create an initiator peer.  `document.export` throws
`UnauthorizedAccessError` when the local key is not allowed; the throw
happens while evaluating the argument of `sendMessage`, so the async
handler aborts before any of the three effects. -/

/-- Observable actions of the request-document handler, in program order. -/
inductive ClientAction (α : Type) where
  | sendResponse (dest : PubKey) (document : ExportBundle α)
  | emitShareDocument (dest : PubKey)
  | createPeer (initiator : Bool) (documentId : String) (dest : PubKey)

/-- The request-document handler of `DocumentSharingClient.setupEvents`.
`found` is the result of `this.find(documentId)` (in-memory or adopted
from storage), `senderPub` is `message.from.publicKey` and `localPriv` the
client's own private key used for the export. -/
def handleRequestDocument [DecidableEq α] (found : Option (DocState α))
    (documentId : String) (senderPub : PubKey) (localPriv : PrivKey)
    (now : Nat) : List (ClientAction α) :=
  match found with
  | none => []
  | some doc =>
      if doc.header.hasAllowedUser senderPub then
        match Document.exportDoc doc now localPriv with
        | (Except.ok bundle, _) =>
            [ClientAction.sendResponse senderPub bundle,
             ClientAction.emitShareDocument senderPub,
             ClientAction.createPeer true documentId senderPub]
        | (Except.error _, _) => []
      else []

/-! ### requestDocument (embedded from src/unnamed/part_010, lines 134-157)

`requestDocument` first fires one `request-document` broadcast, then
returns `Promise.any` of (a) the local lookup, which rejects when the
document is not found, and (b) `Promise.race` of the `document-<id>` event
and a 5000 ms timer that rejects with the timeout error.  Promises are
modelled denotationally by their settlement: a value or an error list,
with the (virtual) time of settlement; a pending promise is `none`.
`race` settles with whichever arm settles first; `any` settles with the
first fulfilment, or, when every arm rejects, rejects at the last
rejection with the accumulated errors (the AggregateError). -/

/-- Settlement of a promise: fulfilment or rejection at a virtual time. -/
inductive PResult (α : Type) where
  | ok (t : Nat) (v : α)
  | err (t : Nat) (es : List String)
deriving DecidableEq

/-- The time at which a settled promise settled. -/
def PResult.settleTime : PResult α → Nat
  | PResult.ok t _ => t
  | PResult.err t _ => t

/-- `Promise.race` of two settled promises: the earlier settlement wins. -/
def race2 (p q : PResult α) : PResult α :=
  if p.settleTime ≤ q.settleTime then p else q

/-- `Promise.race` where the first arm may be forever pending. -/
def raceOpt (p : Option (PResult α)) (q : PResult α) : PResult α :=
  match p with
  | some p => race2 p q
  | none => q

/-- `Promise.any` of two promises: the first fulfilment wins; when both
reject, the aggregate rejection settles at the later rejection. -/
def any2 (p q : PResult α) : PResult α :=
  match p, q with
  | PResult.ok t v, PResult.ok u w => if t ≤ u then PResult.ok t v else PResult.ok u w
  | PResult.ok t v, PResult.err _ _ => PResult.ok t v
  | PResult.err _ _, PResult.ok u w => PResult.ok u w
  | PResult.err t es, PResult.err u fs => PResult.err (max t u) (es ++ fs)

/-- The rejection message of the 5-second timer in `requestDocument`. -/
def documentRequestTimedOut : String := "Document request timed out"

/-- `DocumentSharingClient.requestDocument`: the broadcast messages sent
(exactly one `request-document` for the id) together with the settlement
of the returned promise.  `localFind` and `tLocal` describe the local
lookup arm (found document, settlement time); `ev` is the arrival of the
`document-<id>` event, if it ever fires.  The lookup arm rejects with the
`Document not found` error when the lookup comes back empty. -/
def localLookupArm (localFind : Option α) (tLocal : Nat) : PResult α :=
  match localFind with
  | some d => PResult.ok tLocal d
  | none => PResult.err tLocal ["Document not found"]

/-- The settlement of the promise `requestDocument` returns, paired with
the broadcast messages it sent. -/
def requestDocument (documentId : String) (localFind : Option α) (tLocal : Nat)
    (ev : Option (Nat × α)) : List (String × String) × PResult α :=
  ([("request-document", documentId)],
   any2 (localLookupArm localFind tLocal)
     (raceOpt (ev.map (fun a => PResult.ok a.1 a.2))
       (PResult.err 5000 [documentRequestTimedOut])))

/-! ### Concrete instances used by scenarios, witnesses and counterexamples -/

instance : MergeSpec Nat := ⟨max⟩

instance [DecidableEq ε] [DecidableEq σ] : DecidableEq (Except ε σ) := fun a b =>
  match a, b with
  | Except.ok x, Except.ok y =>
      if h : x = y then isTrue (h ▸ rfl) else isFalse (fun hh => h (Except.ok.inj hh))
  | Except.error x, Except.error y =>
      if h : x = y then isTrue (h ▸ rfl) else isFalse (fun hh => h (Except.error.inj hh))
  | Except.ok _, Except.error _ => isFalse (fun hh => Except.noConfusion hh)
  | Except.error _, Except.ok _ => isFalse (fun hh => Except.noConfusion hh)

/-- Whether an `Except` computation succeeded. -/
def exceptIsOk : Except ε σ → Bool
  | Except.ok _ => true
  | Except.error _ => false

/-- Scenario S1's data shape: a record with a `count` field. -/
structure CountData where
  count : Nat
deriving DecidableEq, Inhabited, Repr

instance : MergeSpec CountData := ⟨fun a b => ⟨max a.count b.count⟩⟩

/-- A header created by owner with private key 0 (public key 1), ACL =
just the owner. -/
def exHeaderOwner1 : DocumentHeader := DocumentHeader.create 0 [] [] 0

/-- A version-2 header for the same address, ACL extended to public key 7,
properly signed by the owner. -/
def exHeaderV2 : DocumentHeader :=
  ⟨exHeaderOwner1.address, 1, 2, [1, 7], [],
   DocumentHeader.signBody 0 ⟨exHeaderOwner1.address, 2, [1, 7], []⟩⟩

/-- A live document of owner 1 with an empty CRDT state. -/
def exState1 : DocState Nat :=
  { document := ⟨0, []⟩, header := exHeaderOwner1, lastAccessed := 0, destroyed := false }

/-- The same document after `destroy()`. -/
def exDestroyed : DocState Nat := (Document.destroy exState1).1

/-- A header whose owner is public key 5 (private key 4) and whose ACL is
just that owner; the local client with private key 0 is not allowed. -/
def cexHeaderC2 : DocumentHeader := DocumentHeader.create 4 [] [] 0

/-- A locally held document the local client (private key 0) is not
allowed on, while public key 5 is. -/
def cexDocC2 : DocState Nat :=
  { document := ⟨0, []⟩, header := cexHeaderC2, lastAccessed := 0, destroyed := false }

/-- Counterexample pair for mergeDocument with equal headers: same header,
diverged CRDT states. -/
def cexMergeD : DocState Nat :=
  { document := ⟨0, [1]⟩, header := exHeaderOwner1, lastAccessed := 0, destroyed := false }

/-- The other half of the equal-header merge counterexample. -/
def cexMergeO : DocState Nat :=
  { document := ⟨7, [2]⟩, header := exHeaderOwner1, lastAccessed := 0, destroyed := false }

/-- A document of owner 1 whose ACL also contains public key 5, so both
the local client (private key 0) and the requester 5 are allowed. -/
def exDocC2ok : DocState Nat :=
  { document := ⟨0, []⟩, header := DocumentHeader.create 0 [5] [] 0
    lastAccessed := 0, destroyed := false }

/-- A document state carrying the version-2 header and a diverged CRDT
state. -/
def exStateV2 : DocState Nat :=
  { document := ⟨3, [4]⟩, header := exHeaderV2, lastAccessed := 0, destroyed := false }

/-- Scenario S1: document created by owner (private key 0), ACL = owner,
metadata title x. -/
def s7Doc0 : DocState CountData := Document.create CountData 0 [] [("title", "x")] 0 0

/-- Scenario S1 after one CRDT change setting count = 1. -/
def s7Doc1 : DocState CountData := (Document.change s7Doc0 1 (fun _ => ⟨1⟩)).1

/-- Scenario S1's export under the owner's private key. -/
def s7Export : Except DocError (ExportBundle CountData) := (Document.exportDoc s7Doc1 2 0).1

/-- Scenario S1's re-import of the exported bundle. -/
def s7Imported : Except DocError (DocState CountData) :=
  match s7Export with
  | Except.ok b => Document.importDoc b 3
  | Except.error e => Except.error e

/-- The `request-document` option of the sharing client's union
(RequestDocumentMessageSchema in part_009/part_010): a `type` literal and
a string `documentId`. -/
def RequestDocumentMessageSchema : MsgSchema :=
  { tag := "request-document"
    parseRest := fun v =>
      match getField v "documentId" with
      | some (Val.vstr s) => some [("documentId", Val.vstr s)]
      | _ => none }

/-- The `document-response` option of the sharing client's union
(ResponseDocumentMessageSchema in part_009/part_010): a `type` literal and
a byte-array `document`. -/
def ResponseDocumentMessageSchema : MsgSchema :=
  { tag := "document-response"
    parseRest := fun v =>
      match getField v "document" with
      | some (Val.vbytes b) => some [("document", Val.vbytes b)]
      | _ => none }

/-- The sharing client's schema list (minus the signal schema, whose
definition lives in the absent PeerManager source). -/
def exchangerSchemas : List MsgSchema :=
  [RequestDocumentMessageSchema, ResponseDocumentMessageSchema]

/-- Scenario S6's ill-typed payload: documentId is an integer. -/
def s6BadMessage : InboundMessage :=
  ⟨5, Val.vobj [("type", Val.vstr "request-document"), ("documentId", Val.vint 42)]⟩

/-- A well-typed request-document payload. -/
def goodRequestMessage : InboundMessage :=
  ⟨5, Val.vobj [("type", Val.vstr "request-document"), ("documentId", Val.vstr "abc")]⟩

/-! ## Theorems -/

/-- ACL membership and the boolean `hasAllowedUser` agree. -/
theorem hasAllowedUser_iff (h : DocumentHeader) (pk : PubKey) :
    h.hasAllowedUser pk = true ↔ pk ∈ h.allowedUsers :=
  List.elem_iff

/-- A successful header upgrade returns the new header. -/
theorem upgrade_ok_value (old new_ h2 : DocumentHeader)
    (h : DocumentHeader.upgrade old new_ = Except.ok h2) : h2 = new_ := by
  unfold DocumentHeader.upgrade at h
  split at h
  · exact (Except.ok.inj h).symm
  · simp at h

/-- Upgrading a header by an equal header is rejected: the version is not
strictly greater. -/
theorem upgrade_refl_rejected (h h2 : DocumentHeader) (he : h = h2) :
    DocumentHeader.upgrade h h2 = Except.error DocError.headerUpgradeRejected := by
  subst he
  unfold DocumentHeader.upgrade
  rw [if_neg]
  rintro ⟨-, hv, -⟩
  exact lt_irrefl _ hv

/-- C1: for every document and private key, `export` succeeds iff the
derived public key is in the header's ACL; when it is not, the call fails
with `UnauthorizedAccessError` and the whole document state — CRDT state
and header included — is unchanged. -/
theorem export_authorization [DecidableEq α] (st : DocState α) (now : Nat)
    (priv : PrivKey) :
    ((∃ b, (Document.exportDoc st now priv).1 = Except.ok b)
        ↔ getPublicKey priv ∈ st.header.allowedUsers)
    ∧ (getPublicKey priv ∉ st.header.allowedUsers →
        (Document.exportDoc st now priv).1 = Except.error DocError.unauthorizedAccess
        ∧ (Document.exportDoc st now priv).2.document = st.document
        ∧ (Document.exportDoc st now priv).2.header = st.header
        ∧ (Document.exportDoc st now priv).2 = st) := by
  by_cases hb : st.header.hasAllowedUser (getPublicKey priv) = true
  · have hmem : getPublicKey priv ∈ st.header.allowedUsers :=
      (hasAllowedUser_iff st.header (getPublicKey priv)).mp hb
    refine ⟨⟨fun _ => hmem, fun _ => ?_⟩, fun hn => absurd hmem hn⟩
    exact ⟨⟨st.header.exportH, Automerge.save st.document,
            createSignature (Automerge.save st.document) priv⟩,
           by simp [Document.exportDoc, hb]⟩
  · have hmem : getPublicKey priv ∉ st.header.allowedUsers := fun hm =>
      hb ((hasAllowedUser_iff st.header (getPublicKey priv)).mpr hm)
    have hbf : st.header.hasAllowedUser (getPublicKey priv) = false :=
      Bool.not_eq_true _ ▸ eq_false_of_ne_true hb
    refine ⟨⟨fun hex => ?_, fun hm => absurd hm hmem⟩, fun _ => ?_⟩
    · obtain ⟨b, hbq⟩ := hex
      simp [Document.exportDoc, hbf] at hbq
    · refine ⟨?_, ?_, ?_, ?_⟩ <;> simp [Document.exportDoc, hbf]

/-- C1 witness: public key 5 (private key 4) is not in the ACL of
`exState1`, and its export attempt fails `Unauthorized` leaving the state
untouched. -/
theorem export_authorization_witness :
    getPublicKey 4 ∉ exState1.header.allowedUsers
    ∧ (Document.exportDoc exState1 9 4).1 = Except.error DocError.unauthorizedAccess
    ∧ (Document.exportDoc exState1 9 4).2 = exState1 := by
  have h := (export_authorization exState1 9 4).2 (by decide)
  exact ⟨by decide, h.1, h.2.2.2⟩

/-- C4: `updateHeader` returns true and emits `header-updated` exactly
when `DocumentHeader.upgrade` accepts the candidate header; on rejection
it returns false, keeps the stored header and emits nothing. -/
theorem updateHeader_behavior [DecidableEq α] (st : DocState α) (now : Nat)
    (h : DocumentHeader) :
    ((Document.updateHeader st now h).2.2 = true
        ↔ DocumentHeader.upgrade st.header h = Except.ok h)
    ∧ (DocumentHeader.upgrade st.header h = Except.ok h →
        (Document.updateHeader st now h).1.header = h
        ∧ (Document.updateHeader st now h).2.1 = [DocEvent.headerUpdated h])
    ∧ ((Document.updateHeader st now h).2.2 = false →
        (Document.updateHeader st now h).1.header = st.header
        ∧ (Document.updateHeader st now h).2.1 = []) := by
  cases hu : DocumentHeader.upgrade st.header h with
  | ok h2 =>
      have hv : h2 = h := upgrade_ok_value st.header h h2 hu
      subst hv
      refine ⟨⟨fun _ => rfl, fun _ => ?_⟩, fun _ => ?_, fun hf => ?_⟩
      · simp [Document.updateHeader, hu]
      · constructor <;> simp [Document.updateHeader, hu]
      · simp [Document.updateHeader, hu] at hf
  | error e =>
      refine ⟨⟨fun ht => ?_, fun hok => ?_⟩, fun hok => ?_, fun _ => ?_⟩
      · simp [Document.updateHeader, hu] at ht
      · simp at hok
      · simp at hok
      · constructor <;> simp [Document.updateHeader, hu]

/-- C4 witness: the version-2 header signed by the owner is accepted
(returns true, emits, stores it); re-offering the current header is
rejected (returns false, header unchanged). -/
theorem updateHeader_behavior_witness :
    (Document.updateHeader exState1 5 exHeaderV2).2.2 = true
    ∧ (Document.updateHeader exState1 5 exHeaderV2).1.header = exHeaderV2
    ∧ (Document.updateHeader exState1 5 exHeaderV2).2.1
        = [DocEvent.headerUpdated exHeaderV2]
    ∧ (Document.updateHeader exState1 6 exHeaderOwner1).2.2 = false
    ∧ (Document.updateHeader exState1 6 exHeaderOwner1).1.header = exState1.header := by
  have hup : DocumentHeader.upgrade exState1.header exHeaderV2 = Except.ok exHeaderV2 := by
    decide
  have h1 := (updateHeader_behavior exState1 5 exHeaderV2).2.1 hup
  have h2 := (updateHeader_behavior exState1 6 exHeaderOwner1).2.2 (by decide)
  exact ⟨(updateHeader_behavior exState1 5 exHeaderV2).1.mpr hup, h1.1, h1.2,
         by decide, h2.1⟩

/-- C5 counterexample: the claim predicts that equal headers still merge
the CRDT states, but on two documents with equal headers and diverged
CRDT states `mergeDocument` leaves the target's CRDT state untouched
(the header upgrade rejects the equal version). -/
theorem mergeDocument_equal_headers_refuted :
    ¬ (∀ (d other : DocState Nat) (now : Nat),
        (DocumentHeader.upgrade d.header other.header = Except.ok other.header
            ∨ d.header = other.header) →
        (Document.mergeDocument d now other).1.document
          = Automerge.merge d.document (Automerge.clone other.document)) := by
  intro hclaim
  have h := hclaim cexMergeD cexMergeO 0 (Or.inr rfl)
  exact absurd h (by decide)

/-- C5 amended: `mergeDocument` merges the CRDT states exactly when the
header upgrade accepts the other header; on rejection — which includes
the case of equal headers, whose version is not strictly greater — the
CRDT state (and header) are unchanged. -/
theorem mergeDocument_amended [DecidableEq α] [MergeSpec α] (d other : DocState α)
    (now : Nat) :
    (DocumentHeader.upgrade d.header other.header = Except.ok other.header →
        (Document.mergeDocument d now other).1.document
          = Automerge.merge d.document (Automerge.clone other.document)
        ∧ (Document.mergeDocument d now other).1.header = other.header)
    ∧ (∀ e, DocumentHeader.upgrade d.header other.header = Except.error e →
        (Document.mergeDocument d now other).1.document = d.document
        ∧ (Document.mergeDocument d now other).1.header = d.header)
    ∧ (d.header = other.header →
        (Document.mergeDocument d now other).1.document = d.document) := by
  refine ⟨fun hok => ?_, fun e herr => ?_, fun heq => ?_⟩
  · constructor <;>
      simp [Document.mergeDocument, Document.updateHeader, Document.update, hok]
  · constructor <;>
      simp [Document.mergeDocument, Document.updateHeader, Document.update, herr]
  · have herr := upgrade_refl_rejected d.header other.header heq
    simp [Document.mergeDocument, Document.updateHeader, Document.update, herr]

/-- C5 witness for the amended claim: an accepted upgrade merges the
diverged CRDT state in; equal headers leave the CRDT state unchanged. -/
theorem mergeDocument_amended_witness :
    (Document.mergeDocument exState1 0 exStateV2).1.document
        = Automerge.merge exState1.document (Automerge.clone exStateV2.document)
    ∧ (Document.mergeDocument cexMergeD 0 cexMergeO).1.document = cexMergeD.document := by
  exact ⟨((mergeDocument_amended exState1 exStateV2 0).1 (by decide)).1,
         (mergeDocument_amended cexMergeD cexMergeO 0).2.2 rfl⟩

/-- C6 counterexample: the claim predicts that after `destroy()` an
`update` is a no-op on the CRDT state, but the source has no destroyed
guard: updating the destroyed `exDestroyed` document still replaces its
CRDT state. -/
theorem destroyed_noop_refuted :
    ¬ (∀ (st : DocState Nat) (now : Nat) (f : ADoc Nat → ADoc Nat),
        st.destroyed = true →
        (Document.update st now f).1.document = st.document) := by
  intro hclaim
  have h := hclaim exDestroyed 1 (fun d => ⟨d.data, [9]⟩) rfl
  exact absurd h (by decide)

/-- C6 amended: `destroy()` sets the destroyed flag and emits `destroyed`
(listener clearing lives in the emitter), and getters keep returning the
stored state; but subsequent operations are not guarded: `update`, `load`,
`change`, `changeAt`, `updateHeader` and `mergeDocument` act on a
destroyed document exactly as they would on the same document before
destruction. -/
theorem destroy_sets_flag_ops_unguarded [DecidableEq α] [MergeSpec α]
    (st other : DocState α) (now : Nat) (f : ADoc α → ADoc α) (g : α → α)
    (hs : List Nat) (h : DocumentHeader) (bin : ADoc α) :
    Document.destroy st = ({ st with destroyed := true }, [DocEvent.destroyed])
    ∧ (Document.update { st with destroyed := true } now f).1.document = f st.document
    ∧ (Document.load { st with destroyed := true } now bin).1.document
        = Automerge.loadIncremental st.document bin
    ∧ (Document.change { st with destroyed := true } now g).1.document
        = Automerge.change st.document g
    ∧ (Document.changeAt { st with destroyed := true } now hs g).1.document
        = Automerge.changeAt st.document hs g
    ∧ (Document.updateHeader { st with destroyed := true } now h).2.2
        = (Document.updateHeader st now h).2.2
    ∧ (Document.updateHeader { st with destroyed := true } now h).1.header
        = (Document.updateHeader st now h).1.header
    ∧ (Document.mergeDocument { st with destroyed := true } now other).1.document
        = (Document.mergeDocument st now other).1.document := by
  refine ⟨rfl, rfl, rfl, rfl, rfl, ?_, ?_, ?_⟩ <;>
    cases hu : DocumentHeader.upgrade st.header h <;>
      cases hv : DocumentHeader.upgrade st.header other.header <;>
        simp [Document.updateHeader, Document.mergeDocument, Document.update, hu, hv]

/-- Scenario S1 observables: the exported bundle re-imports successfully,
with count 1 and the original heads. -/
theorem s1_roundtrip_observables :
    exceptIsOk s7Export = true
    ∧ exceptIsOk s7Imported = true
    ∧ s7Imported.toOption.map (fun st => st.document.data.count) = some 1
    ∧ s7Imported.toOption.map (fun st => Automerge.getHeads st.document)
        = some (Automerge.getHeads s7Doc1.document) := by
  decide

/-- For duplicate-free head lists, the boolean comparison used by
`hasChanged` (equal length and containment) is set equality of the
heads. -/
theorem nodup_heads_eq (a b : List Nat) (ha : a.Nodup) (hb : b.Nodup) :
    ((a.length == b.length && a.all (fun h => b.contains h)) = true)
      ↔ a.toFinset = b.toFinset := by
  rw [Bool.and_eq_true]
  constructor
  · intro hcond
    obtain ⟨hlen, hall⟩ := hcond
    have hlen2 : a.length = b.length := beq_iff_eq.mp hlen
    have hsub : a.toFinset ⊆ b.toFinset := by
      intro x hx
      rw [List.mem_toFinset] at hx ⊢
      exact List.elem_iff.mp (List.all_eq_true.mp hall x hx)
    refine Finset.eq_of_subset_of_card_le hsub ?_
    rw [List.toFinset_card_of_nodup ha, List.toFinset_card_of_nodup hb, hlen2]
  · intro hfin
    have hlen2 : a.length = b.length := by
      rw [← List.toFinset_card_of_nodup ha, ← List.toFinset_card_of_nodup hb, hfin]
    refine ⟨beq_iff_eq.mpr hlen2, List.all_eq_true.mpr ?_⟩
    intro x hx
    refine List.elem_iff.mpr ?_
    rw [← List.mem_toFinset, ← hfin, List.mem_toFinset]
    exact hx

/-- For duplicate-free head lists, `hasChanged` is false exactly when the
new doc's head set equals the current one. -/
theorem hasChanged_false_iff [DecidableEq α] (st : DocState α) (d : ADoc α)
    (h1 : st.document.heads.Nodup) (h2 : d.heads.Nodup) :
    Document.hasChanged st d = false
      ↔ d.heads.toFinset = st.document.heads.toFinset := by
  unfold Document.hasChanged Automerge.getHeads
  rw [Bool.not_eq_false']
  rw [nodup_heads_eq st.document.heads d.heads h1 h2]
  exact ⟨Eq.symm, Eq.symm⟩

/-- C8: `update(fn)` always replaces the state by `fn`'s result; it emits
`change` exactly when the (duplicate-free) head set of the result differs
from the current head set; and in the primitive-step trace the `change`
emission strictly precedes the assignment that replaces the state. -/
theorem update_emits_change_iff [DecidableEq α] (st : DocState α) (now : Nat)
    (f : ADoc α → ADoc α) (h1 : st.document.heads.Nodup)
    (h2 : (f st.document).heads.Nodup) :
    (Document.update st now f).1.document = f st.document
    ∧ ((Document.update st now f).2 = [DocEvent.change (f st.document)]
        ↔ (f st.document).heads.toFinset ≠ st.document.heads.toFinset)
    ∧ ((Document.update st now f).2 = []
        ↔ (f st.document).heads.toFinset = st.document.heads.toFinset)
    ∧ Document.updateTrace st f
        = (if (f st.document).heads.toFinset = st.document.heads.toFinset
           then [Document.UpdateStep.setDocument (f st.document)]
           else [Document.UpdateStep.emitChange (f st.document),
                 Document.UpdateStep.setDocument (f st.document)]) := by
  have hiff := hasChanged_false_iff st (f st.document) h1 h2
  have hrec : Document.hasChanged { st with lastAccessed := now } (f st.document)
      = Document.hasChanged st (f st.document) := rfl
  cases hch : Document.hasChanged st (f st.document) with
  | false =>
      have heq := hiff.mp hch
      refine ⟨rfl, ⟨fun hev => ?_, fun hne => absurd heq hne⟩,
              ⟨fun _ => heq, fun _ => ?_⟩, ?_⟩
      · simp [Document.update, hrec, hch] at hev
      · simp [Document.update, hrec, hch]
      · simp [Document.updateTrace, hch, heq]
  | true =>
      have hne : (f st.document).heads.toFinset ≠ st.document.heads.toFinset :=
        fun he => by simp [hiff.mpr he] at hch
      refine ⟨rfl, ⟨fun _ => hne, fun _ => ?_⟩,
              ⟨fun hev => ?_, fun he => absurd he hne⟩, ?_⟩
      · simp [Document.update, hrec, hch]
      · simp [Document.update, hrec, hch] at hev
      · simp [Document.updateTrace, hch, hne]

/-- C8 witness: on the empty-headed `exState1`, a callback that moves the
frontier to head 1 makes `update` emit `change` with the new doc, replace
the state, and order the emission before the assignment. -/
theorem update_emits_change_iff_witness :
    (Document.update exState1 3 (fun d => ⟨d.data, [1]⟩)).2
        = [DocEvent.change (⟨0, [1]⟩ : ADoc Nat)]
    ∧ (Document.update exState1 3 (fun d => ⟨d.data, [1]⟩)).1.document
        = (⟨0, [1]⟩ : ADoc Nat)
    ∧ Document.updateTrace exState1 (fun d => ⟨d.data, [1]⟩)
        = [Document.UpdateStep.emitChange ⟨0, [1]⟩,
           Document.UpdateStep.setDocument ⟨0, [1]⟩] := by
  have h := update_emits_change_iff exState1 3 (fun d => ⟨d.data, [1]⟩)
    (by decide) (by decide)
  refine ⟨h.2.1.mpr (by decide), h.1, ?_⟩
  rw [h.2.2.2, if_neg (by decide)]
  rfl

/-- C9: `requestDocument` sends exactly one `request-document` broadcast;
it resolves with a document when the local lookup finds one, or when the
`document-<id>` event arrives before the 5000 ms timer; otherwise (lookup
misses within the deadline and no event arrives in time) the returned
promise rejects at the 5-second deadline with an aggregate that contains
the `Document request timed out` error. -/
theorem requestDocument_behavior (documentId : String) (localFind : Option α)
    (tLocal : Nat) (ev : Option (Nat × α)) :
    (requestDocument documentId localFind tLocal ev).1
        = [("request-document", documentId)]
    ∧ (∀ d, localFind = some d →
        ∃ t v, (requestDocument documentId localFind tLocal ev).2 = PResult.ok t v)
    ∧ (∀ t d, localFind = none → ev = some (t, d) → t < 5000 →
        (requestDocument documentId localFind tLocal ev).2 = PResult.ok t d)
    ∧ (localFind = none → tLocal ≤ 5000 →
        (ev = none ∨ ∃ t d, ev = some (t, d) ∧ 5000 < t) →
        ∃ es, (requestDocument documentId localFind tLocal ev).2 = PResult.err 5000 es
          ∧ documentRequestTimedOut ∈ es) := by
  refine ⟨rfl, fun d hld => ?_, fun t d hln hev hlt => ?_, fun hln htl hcase => ?_⟩
  · cases hr : raceOpt (ev.map fun a => PResult.ok a.1 a.2)
        (PResult.err 5000 [documentRequestTimedOut]) with
    | ok u w =>
        by_cases hle : tLocal ≤ u
        · exact ⟨tLocal, d, by simp [requestDocument, localLookupArm, hld, hr, any2, hle]⟩
        · exact ⟨u, w, by simp [requestDocument, localLookupArm, hld, hr, any2, hle]⟩
    | err u es =>
        exact ⟨tLocal, d, by simp [requestDocument, localLookupArm, hld, hr, any2]⟩
  · simp [requestDocument, localLookupArm, hln, hev, any2, raceOpt, race2,
          PResult.settleTime, Nat.le_of_lt hlt]
  · have hrace : raceOpt (ev.map fun a => PResult.ok a.1 a.2)
        (PResult.err 5000 [documentRequestTimedOut])
        = PResult.err 5000 [documentRequestTimedOut] := by
      rcases hcase with hev | ⟨t, d, hev, ht⟩
      · rw [hev]; rfl
      · rw [hev]
        have hnle : ¬ t ≤ 5000 := by omega
        simp [raceOpt, race2, PResult.settleTime, hnle]
    refine ⟨["Document not found"] ++ [documentRequestTimedOut], ?_, by simp⟩
    simp [requestDocument, localLookupArm, hln, hrace, any2, Nat.max_eq_right htl]

/-- C9 witness: with no local copy (lookup settling at 10 ms) and no
event ever arriving, the request for a nonexistent id rejects at 5000 ms
with the timeout error among the aggregated rejections. -/
theorem requestDocument_behavior_witness :
    ∃ es, (requestDocument "nonexistent" (none : Option Nat) 10 none).2
        = PResult.err 5000 es ∧ documentRequestTimedOut ∈ es := by
  exact (requestDocument_behavior "nonexistent" none 10 none).2.2.2 rfl
    (by omega) (Or.inl rfl)

/-- C2 counterexample: the claim's forward direction fails.  `cexDocC2` is
held locally and requester 5 is an allowed user, yet the handler sends no
`document-response` (and creates no peer): the local client's own key is
not allowed, so `document.export(privateKey)` throws and the handler
aborts before sending. -/
theorem requestHandler_iff_refuted :
    ¬ (∀ (found : Option (DocState Nat)) (documentId : String) (senderPub : PubKey)
        (localPriv : PrivKey) (now : Nat),
        (∃ doc, found = some doc ∧ doc.header.hasAllowedUser senderPub = true) →
        ∃ b, ClientAction.sendResponse senderPub b
          ∈ handleRequestDocument found documentId senderPub localPriv now) := by
  intro hclaim
  obtain ⟨b, hb⟩ := hclaim (some cexDocC2) "d" 5 0 0 ⟨cexDocC2, rfl, by decide⟩
  have hnil : handleRequestDocument (some cexDocC2) "d" 5 0 0
      = ([] : List (ClientAction Nat)) := rfl
  rw [hnil] at hb
  exact absurd hb (List.not_mem_nil _)

/-- C2 amended: the handler sends the `document-response`, emits
`share-document` and creates the initiator peer exactly when the document
is found locally, the sender is an allowed user, and additionally the
local client's own public key is allowed (so the export succeeds); in
every other case — not found, sender not allowed, or local key not
allowed — nothing is sent and no peer is created. -/
theorem requestHandler_amended [DecidableEq α] (found : Option (DocState α))
    (documentId : String) (senderPub : PubKey) (localPriv : PrivKey) (now : Nat) :
    (found = none →
        handleRequestDocument found documentId senderPub localPriv now = [])
    ∧ (∀ doc, found = some doc → doc.header.hasAllowedUser senderPub = false →
        handleRequestDocument found documentId senderPub localPriv now = [])
    ∧ (∀ doc, found = some doc → doc.header.hasAllowedUser senderPub = true →
        doc.header.hasAllowedUser (getPublicKey localPriv) = false →
        handleRequestDocument found documentId senderPub localPriv now = [])
    ∧ (∀ doc, found = some doc → doc.header.hasAllowedUser senderPub = true →
        doc.header.hasAllowedUser (getPublicKey localPriv) = true →
        handleRequestDocument found documentId senderPub localPriv now
          = [ClientAction.sendResponse senderPub
               ⟨doc.header.exportH, Automerge.save doc.document,
                createSignature (Automerge.save doc.document) localPriv⟩,
             ClientAction.emitShareDocument senderPub,
             ClientAction.createPeer true documentId senderPub]) := by
  refine ⟨fun hn => ?_, fun doc hf hs => ?_, fun doc hf hs hl => ?_,
          fun doc hf hs hl => ?_⟩
  · subst hn; rfl
  · subst hf; simp [handleRequestDocument, hs]
  · subst hf; simp [handleRequestDocument, Document.exportDoc, hs, hl]
  · subst hf; simp [handleRequestDocument, Document.exportDoc, hs, hl]

/-- C2 witness for the amended claim: with both the requester (key 5) and
the local client (public key 1) allowed, all three actions fire; a
non-allowed requester (key 9) gets nothing. -/
theorem requestHandler_amended_witness :
    handleRequestDocument (some exDocC2ok) "d" 5 0 0
      = [ClientAction.sendResponse 5
           ⟨exDocC2ok.header.exportH, Automerge.save exDocC2ok.document,
            createSignature (Automerge.save exDocC2ok.document) 0⟩,
         ClientAction.emitShareDocument 5,
         ClientAction.createPeer true "d" 5]
    ∧ handleRequestDocument (some cexDocC2) "d" 9 0 0 = ([] : List (ClientAction Nat)) := by
  exact ⟨(requestHandler_amended (some exDocC2ok) "d" 5 0 0).2.2.2 exDocC2ok rfl
           (by decide) (by decide),
         (requestHandler_amended (some cexDocC2) "d" 9 0 0).2.1 cexDocC2 rfl (by decide)⟩

/-- A successful discriminated-union parse comes from one schema of the
list: that option's parse produced the output, and the output's `type`
field is that option's literal tag. -/
theorem discriminatedParse_some (schemas : List MsgSchema) (v d : Val)
    (hp : discriminatedParse schemas v = some d) :
    ∃ s, s ∈ schemas ∧ optionParse s v = some d ∧ typeFieldStr d = s.tag := by
  cases v with
  | vstr s0 => simp [discriminatedParse] at hp
  | vint n => simp [discriminatedParse] at hp
  | vbool b => simp [discriminatedParse] at hp
  | vbytes b => simp [discriminatedParse] at hp
  | vobj fields =>
      simp only [discriminatedParse] at hp
      cases hg : getField (Val.vobj fields) "type" with
      | none => rw [hg] at hp; simp at hp
      | some tv =>
          rw [hg] at hp
          cases tv with
          | vint n => simp at hp
          | vbool b => simp at hp
          | vbytes b => simp at hp
          | vobj fs2 => simp at hp
          | vstr t =>
              replace hp : (match schemas.find? (fun s => s.tag == t) with
                  | some s => optionParse s (Val.vobj fields)
                  | none => none) = some d := hp
              cases hf : schemas.find? (fun s => s.tag == t) with
              | none => rw [hf] at hp; simp at hp
              | some s =>
                  rw [hf] at hp
                  refine ⟨s, List.mem_of_find?_eq_some hf, hp, ?_⟩
                  unfold optionParse at hp
                  rw [hg] at hp
                  replace hp : (if (t == s.tag) = true then
                      Option.map (fun fs => Val.vobj (("type", Val.vstr s.tag) :: fs))
                        (s.parseRest (Val.vobj fields))
                    else none) = some d := hp
                  by_cases ht : (t == s.tag) = true
                  · rw [if_pos ht] at hp
                    cases hr : s.parseRest (Val.vobj fields) with
                    | none => rw [hr] at hp; simp at hp
                    | some fs =>
                        rw [hr] at hp
                        replace hp : some (Val.vobj (("type", Val.vstr s.tag) :: fs))
                            = some d := hp
                        have hd : d = Val.vobj (("type", Val.vstr s.tag) :: fs) :=
                          (Option.some.inj hp).symm
                        subst hd
                        simp [typeFieldStr, getField, List.lookup]
                  · rw [if_neg ht] at hp
                    simp at hp

/-- C3: for every inbound message, a payload that fails the
discriminated-union parse emits no event and is only logged (the safe
parse makes `handle` total, so nothing propagates to the connection
layer); a payload that parses as some option emits exactly one event,
keyed by that option's `type` tag, whose data is that option's parse
output. -/
theorem handle_schema_filtering (schemas : List MsgSchema) (message : InboundMessage) :
    (discriminatedParse schemas message.data = none →
        (MessageExchanger.handle schemas message).events = []
        ∧ (MessageExchanger.handle schemas message).loggedError = true)
    ∧ (∀ d, discriminatedParse schemas message.data = some d →
        ∃ s, s ∈ schemas
          ∧ (MessageExchanger.handle schemas message).events = [(s.tag, d)]
          ∧ optionParse s message.data = some d
          ∧ (MessageExchanger.handle schemas message).loggedError = false) := by
  constructor
  · intro hp
    unfold MessageExchanger.handle
    rw [hp]
    exact ⟨rfl, rfl⟩
  · intro d hp
    obtain ⟨s, hmem, hop, hty⟩ := discriminatedParse_some schemas message.data d hp
    refine ⟨s, hmem, ?_, hop, ?_⟩
    · unfold MessageExchanger.handle
      rw [hp]
      simp [hty]
    · unfold MessageExchanger.handle
      rw [hp]

/-- C3 witness: scenario S6's ill-typed payload (`documentId` an integer)
emits nothing and only logs; the well-typed request emits exactly the
`request-document` event with the parsed payload. -/
theorem handle_schema_filtering_witness :
    (MessageExchanger.handle exchangerSchemas s6BadMessage).events = []
    ∧ (MessageExchanger.handle exchangerSchemas s6BadMessage).loggedError = true
    ∧ ∃ s, s ∈ exchangerSchemas
        ∧ (MessageExchanger.handle exchangerSchemas goodRequestMessage).events
            = [(s.tag, Val.vobj [("type", Val.vstr "request-document"),
                                 ("documentId", Val.vstr "abc")])] := by
  have hbad := (handle_schema_filtering exchangerSchemas s6BadMessage).1 rfl
  have hgood := (handle_schema_filtering exchangerSchemas goodRequestMessage).2
    (Val.vobj [("type", Val.vstr "request-document"), ("documentId", Val.vstr "abc")])
    rfl
  obtain ⟨s, hmem, hev, -, -⟩ := hgood
  exact ⟨hbad.1, hbad.2, s, hmem, hev⟩

/-- C10: `sendMessage` without a signaling client fails with the
`Cannot send message without a signaling client` error and delegates
nothing; with a client set, the parsed payload is delegated exactly when
the union parse succeeds, and a payload failing the schema is never
delegated (`parseAsync` throws instead). -/
theorem sendMessage_gating (schemas : List MsgSchema) (data : Val) :
    MessageExchanger.sendMessage schemas false data
        = Except.error "Cannot send message without a signaling client"
    ∧ (∀ d, MessageExchanger.sendMessage schemas true data = Except.ok d
        ↔ discriminatedParse schemas data = some d)
    ∧ (discriminatedParse schemas data = none →
        MessageExchanger.sendMessage schemas true data = Except.error "SchemaRejected") := by
  refine ⟨rfl, fun d => ?_, fun hp => ?_⟩
  · cases hq : discriminatedParse schemas data with
    | some a => simp [MessageExchanger.sendMessage, hq]
    | none => simp [MessageExchanger.sendMessage, hq]
  · simp [MessageExchanger.sendMessage, hp]

/-- C10 witness: with a client set, the ill-typed S6 payload is rejected
(not delegated) and the well-typed request is delegated as its parsed
form. -/
theorem sendMessage_gating_witness :
    MessageExchanger.sendMessage exchangerSchemas true s6BadMessage.data
        = Except.error "SchemaRejected"
    ∧ MessageExchanger.sendMessage exchangerSchemas true goodRequestMessage.data
        = Except.ok (Val.vobj [("type", Val.vstr "request-document"),
                               ("documentId", Val.vstr "abc")]) := by
  exact ⟨(sendMessage_gating exchangerSchemas s6BadMessage.data).2.2 rfl,
         ((sendMessage_gating exchangerSchemas goodRequestMessage.data).2.1 _).mpr rfl⟩

end Describble
